import Mathlib

/-!
Shallow embedding of the MemoryKeep backend:
`src/backend/app.py` (Flask memory API) and `src/backend/automation_worker.py`
(polling dispatcher).  JSON-deserialised Python values are modelled by `JValue`
(numbers restricted to integers; no operation in the backend inspects numeric
values).  The filesystem is a map from full path strings to file contents plus
a set of existing directories; server timestamps (`datetime.now().isoformat()`)
are passed in as an explicit string parameter.
-/

set_option maxHeartbeats 1000000

namespace MemoryKeep

/-- A JSON-deserialised Python value (`request.json` payloads, file payloads). -/
inductive JValue where
  | null : JValue
  | bool (b : Bool) : JValue
  | num (n : Int) : JValue
  | str (s : String) : JValue
  | arr (elems : List JValue) : JValue
  | obj (fields : List (String × JValue)) : JValue
deriving Repr

/-- Python `d.get(k)` on a dict: first binding for `k`, else `None` (here `none`).
On non-dict values the model returns `none` (callers below only apply it to
objects, matching where `.get` is used in the source). -/
def jget : JValue → String → Option JValue
  | .obj fields, k => fields.lookup k
  | _, _ => none

/-- Python `d[k] = v` on a dict: replace the first binding in place, else append. -/
def setKey : List (String × JValue) → String → JValue → List (String × JValue)
  | [], k, v => [(k, v)]
  | (k', v') :: rest, k, v =>
      if k' = k then (k, v) :: rest else (k', v') :: setKey rest k v

/-- Python truthiness of a JSON-deserialised value (`if not mem_type`,
`if not data`): `None`, `False`, `0`, `""`, `[]`, `\x7b\x7d` are falsy. -/
def pyTruthy : JValue → Bool
  | .null => false
  | .bool b => b
  | .num n => n != 0
  | .str s => s ≠ ""
  | .arr l => ¬ l.isEmpty
  | .obj l => ¬ l.isEmpty

/-- Truthiness of an optional value (absent = Python `None` = falsy). -/
def optTruthy : Option JValue → Bool
  | none => false
  | some v => pyTruthy v

mutual

/-- Python `repr` of a JSON-deserialised value, as used inside `str` of
containers.  String escaping is modelled for backslash and quote only. -/
def pyRepr : JValue → String
  | .null => "None"
  | .bool b => if b then "True" else "False"
  | .num n => toString n
  | .str s =>
      "'" ++ String.mk (s.data.flatMap fun c =>
        if c = '\\' ∨ c = '\'' then ['\\', c] else [c]) ++ "'"
  | .arr l => "[" ++ String.intercalate ", " (pyReprList l) ++ "]"
  | .obj l => "\x7b" ++ String.intercalate ", " (pyReprFields l) ++ "\x7d"

def pyReprList : List JValue → List String
  | [] => []
  | v :: rest => pyRepr v :: pyReprList rest

def pyReprFields : List (String × JValue) → List String
  | [] => []
  | (k, v) :: rest => (pyRepr (.str k) ++ ": " ++ pyRepr v) :: pyReprFields rest

end

/-- Python `str` of a JSON-deserialised value, as interpolated by the f-strings
in the source (`f"[\x7btimestamp\x7d] \x7bentry\x7d\n"`, `f"\x7bmem_type\x7d.\x7bext\x7d"`):
a string prints without quotes, anything else prints as its `repr`. -/
def pyStr : JValue → String
  | .str s => s
  | v => pyRepr v

/-! String scanning is modelled on the character list (`String.data`), with
the same semantics as the Python string methods used by the source. -/

/-- `s.startswith(p)`. -/
def hasPrefixChars : List Char → List Char → Bool
  | _, [] => true
  | [], _ :: _ => false
  | c :: cs, p :: ps => c = p && hasPrefixChars cs ps

def splitCharAux (sep : Char) : List Char → List Char → List String
  | [], acc => [String.mk acc.reverse]
  | c :: cs, acc =>
      if c = sep then String.mk acc.reverse :: splitCharAux sep cs []
      else splitCharAux sep cs (c :: acc)

/-- Python `s.split(sep)` for a one-character separator (empty pieces kept). -/
def splitChar (sep : Char) (s : String) : List String := splitCharAux sep s.data []

/-- The ASCII whitespace stripped by Python `str.strip()`. -/
def isPySpace (c : Char) : Bool :=
  c = ' ' ∨ c = '\t' ∨ c = '\n' ∨ c = '\r' ∨ c = '\x0b' ∨ c = '\x0c'

/-- Python `s.strip()`. -/
def pyStrip (s : String) : String :=
  String.mk (((s.data.dropWhile isPySpace).reverse.dropWhile isPySpace).reverse)

/-- The characters after the first occurrence of `sep` (`s.split(sep, 1)[1]`). -/
def afterChar (sep : Char) : List Char → List Char
  | [] => []
  | c :: cs => if c = sep then cs else afterChar sep cs

/-- The characters before the first occurrence of `sep` (`s.split(sep, 1)[0]`). -/
def beforeChar (sep : Char) : List Char → List Char
  | [] => []
  | c :: cs => if c = sep then [] else c :: beforeChar sep cs

/-- Contents of one file: either a valid JSON document (as written by
`json.dump`) or plain text bytes that do not form a valid JSON document
(as written by the raw-log writers). -/
inductive FileData where
  | json (v : JValue) : FileData
  | text (s : String) : FileData
deriving Repr

/-- `json.load` on a file: succeeds exactly on JSON documents. -/
def FileData.readJson : FileData → Option JValue
  | .json v => some v
  | .text _ => none

/-- `f.read()` on a file.  For a JSON document the serialised form is not
tracked by the model (no code path reads a `.json`-extension file as text). -/
def FileData.readText : FileData → String
  | .json _ => ""
  | .text s => s

/-- `open(path, "a")` followed by `f.write(s)`: append to existing text.
The `json` case cannot arise from the modelled operations (raw appends only
target `.txt`/`.log` paths, which only ever receive text writes). -/
def FileData.appendStr : FileData → String → FileData
  | .text t, s => .text (t ++ s)
  | .json _, s => .text s

/-- The filesystem: file contents by full path, plus the set of directories
created so far (`os.makedirs`).  File identity is the path string as built by
the backend; the model performs no OS path resolution, so theorems about
path disjointness carry hypotheses (no separator in the credential or
category, credential not "." or "..") under which resolution is the identity
and distinct strings are distinct files on disk. -/
structure FS where
  files : String → Option FileData
  dirs : List String

/-- `os.path.join(a, b)` for the shapes used in the source: an absolute second
component (`b.startswith("/")`) discards the first; otherwise a separator is
inserted unless one is already present.  The one-character boundary tests are
written on the character list. -/
def osJoin (a b : String) : String :=
  if b.data.head? = some '/' then b
  else if a = "" then b
  else if a.data.getLast? = some '/' then a ++ b
  else a ++ "/" ++ b

/-- `MEMORY_BASE = os.path.join(os.path.dirname(__file__), "memory_data")`,
modelled relative to the backend directory. -/
def MEMORY_BASE : String := "memory_data"

/-- `os.makedirs(d, exist_ok=True)`: idempotent directory creation. -/
def FS.makedirs (fs : FS) (d : String) : FS :=
  if d ∈ fs.dirs then fs else { fs with dirs := d :: fs.dirs }

/-- The state at process start: no memory files, only the base directory
(created at import time by `os.makedirs(MEMORY_BASE, exist_ok=True)`). -/
def FS.initial : FS := ⟨fun _ => none, [MEMORY_BASE]⟩

/-- Write (create or truncate) one file.  Models a write whose parent
directory exists: with a separator-free category the parent is the tenant
directory that `get_file_path` has just created, so `open(path, "w"/"a")`
succeeds; with a category containing a separator the real `open` needs the
deeper directory to have been created by an earlier request (as in the
isolation counterexample below, whose first step creates it). -/
def FS.setFile (fs : FS) (p : String) (d : FileData) : FS :=
  { fs with files := fun q => if q = p then some d else fs.files q }

/-- The pure path part of `get_file_path`:
`os.path.join(inst_dir, f"\x7bmem_type\x7d.\x7bext\x7d")` with
`ext = "json" if as_json else "txt" if mem_type != "experience" else "log"`. -/
def filePathStr (instance_id mem_type : String) (as_json : Bool) : String :=
  let inst_dir := osJoin MEMORY_BASE instance_id
  let ext := if as_json then "json" else if mem_type ≠ "experience" then "txt" else "log"
  osJoin inst_dir (mem_type ++ "." ++ ext)

/-- `get_file_path(instance_id, mem_type, as_json)`: ensures the tenant's
directory exists (side effect) and returns the file path. -/
def get_file_path (fs : FS) (instance_id mem_type : String) (as_json : Bool) :
    FS × String :=
  let inst_dir := osJoin MEMORY_BASE instance_id
  let fs' := fs.makedirs inst_dir
  (fs', filePathStr instance_id mem_type as_json)

/-- An HTTP-level response: a 200 JSON body, or an error status with message.
An uncaught Python exception surfaces as the framework's 500 response. -/
inductive Resp where
  | ok (body : JValue) : Resp
  | err (code : Nat) (msg : String) : Resp
deriving Repr

/-- Internal-server-error response produced by an uncaught exception. -/
def Resp.crash : Resp := .err 500 "Internal Server Error"

/-- One line of `whitelist.txt`, as processed by `load_whitelist` in `app.py`:
strip; skip blank and `#` lines; on a comma line the credential is the text
after the first comma, stripped; otherwise the whole stripped line. -/
def parseKeyLine (line : String) : Option String :=
  let l := pyStrip line
  if l = "" then none
  else if l.data.head? = some '#' then none
  else if l.data.contains ',' then some (pyStrip (String.mk (afterChar ',' l.data)))
  else some l

/-- `load_whitelist` (`app.py`): the set of credentials, from an optionally
readable source (`none` models any read failure, which is caught and yields
the empty set). -/
def load_whitelist (src : Option String) : List String :=
  match src with
  | none => []
  | some content =>
      (splitChar '\n' content).foldl
        (fun keys line =>
          match parseKeyLine line with
          | none => keys
          | some k => if k ∈ keys then keys else keys ++ [k])
        []

/-- The `require_api_key` decorator's gate: `none` models a missing
`Authorization` header; a header not starting with `"Bearer "` is rejected 401;
a well-formed header's second space-separated token must be in the key set,
else 403.  On success the api key becomes the request's `instance_id`. -/
def require_api_key (keys : List String) (auth_header : Option String) :
    Except Resp String :=
  match auth_header with
  | none => .error (.err 401 "Missing or invalid Authorization header")
  | some h =>
      if ¬ hasPrefixChars h.data "Bearer ".data then
        .error (.err 401 "Missing or invalid Authorization header")
      else
        let api_key := (splitChar ' ' h).getD 1 ""
        if api_key ∈ keys then .ok api_key
        else .error (.err 403 "Unauthorized")

/-- The `entry` field of a request body: `data.get("entry")` is Python `None`
both when the key is absent and when it is JSON `null`. -/
def entryOf (body : JValue) : Option JValue :=
  match jget body "entry" with
  | some .null => none
  | some v => some v
  | none => none

/-- `data.get("type", "experience")` as it is subsequently used: the value is
only ever compared with / interpolated into strings, so it is collapsed to its
Python `str` form. -/
def typeOfDefault (body : JValue) : String :=
  match jget body "type" with
  | none => "experience"
  | some v => pyStr v

/-- The `logs = ...` block of `log_memory`: missing file or `json.load`
failure yield the empty list; a JSON document that is not an array makes the
subsequent `logs.append` raise (`none` here = uncaught exception). -/
def loadLogs : Option FileData → Option (List JValue)
  | none => some []
  | some fd =>
      match fd.readJson with
      | none => some []
      | some (.arr l) => some l
      | some _ => none

/-- `open(file_path, "a")` + `f.write(line)`: create the file or append. -/
def rawAppend : Option FileData → String → FileData
  | none, s => .text s
  | some fd, s => fd.appendStr s

/-- `log_memory` (POST `/api/log-memory`), after the access gate: append one
entry.  A dict entry is stamped with the timestamp and appended to the JSON
array at the structured path; any other entry is formatted as one
`[timestamp] entry` line appended to the raw path. -/
def log_memory (fs : FS) (instance_id : String) (body : JValue) (timestamp : String) :
    FS × Resp :=
  let mem_type := typeOfDefault body
  match entryOf body with
  | none => (fs, .err 400 "Missing 'entry'")
  | some entry =>
    match entry with
    | .obj fields =>
        let (fs1, file_path) := get_file_path fs instance_id mem_type true
        match loadLogs (fs1.files file_path) with
        | none => (fs1, Resp.crash)
        | some logs =>
            let entry' := JValue.obj (setKey fields "timestamp" (.str timestamp))
            (fs1.setFile file_path (.json (.arr (logs ++ [entry']))),
             .ok (.obj [("status", .str "logged")]))
    | _ =>
        let (fs1, file_path) := get_file_path fs instance_id mem_type false
        let line := "[" ++ timestamp ++ "] " ++ pyStr entry ++ "\n"
        (fs1.setFile file_path (rawAppend (fs1.files file_path) line),
         .ok (.obj [("status", .str "logged")]))

/-- `get_memory` (GET `/api/get-memory`), after the access gate: the structured
path takes precedence; parse failure there is an uncaught exception (500);
otherwise fall back to the raw path's text; else 404. -/
def get_memory (fs : FS) (instance_id : String) (type_param : Option String) :
    FS × Resp :=
  let mem_type := type_param.getD "experience"
  let (fs1, file_path_txt) := get_file_path fs instance_id mem_type false
  let (fs2, file_path_json) := get_file_path fs1 instance_id mem_type true
  match fs2.files file_path_json with
  | some fd =>
      match fd.readJson with
      | some v => (fs2, .ok (.obj [("memory", v), ("format", .str "json")]))
      | none => (fs2, Resp.crash)
  | none =>
      match fs2.files file_path_txt with
      | some fd =>
          (fs2, .ok (.obj [("memory", .str fd.readText), ("format", .str "text")]))
      | none => (fs2, .err 404 "No memory found")

/-- `overwrite_memory` (POST `/api/overwrite-memory`), after the access gate:
requires a truthy `type` and a present non-null `entry`; a dict or list entry
replaces the structured file verbatim; a string entry replaces the raw file
with its stripped text plus newline; any other entry has no `.strip` → 500. -/
def overwrite_memory (fs : FS) (instance_id : String) (body : JValue) :
    FS × Resp :=
  match jget body "type", entryOf body with
  | some tv, some entry =>
      if ¬ pyTruthy tv then (fs, .err 400 "Missing 'type' or 'entry'")
      else
        let mem_type := pyStr tv
        match entry with
        | .obj fields =>
            let (fs1, file_path) := get_file_path fs instance_id mem_type true
            (fs1.setFile file_path (.json (.obj fields)),
             .ok (.obj [("status", .str "overwritten")]))
        | .arr elems =>
            let (fs1, file_path) := get_file_path fs instance_id mem_type true
            (fs1.setFile file_path (.json (.arr elems)),
             .ok (.obj [("status", .str "overwritten")]))
        | .str s =>
            let (fs1, file_path) := get_file_path fs instance_id mem_type false
            (fs1.setFile file_path (.text (pyStrip s ++ "\n")),
             .ok (.obj [("status", .str "overwritten")]))
        | _ =>
            -- `open(file_path, "w")` truncates before `entry.strip()` raises
            let (fs1, file_path) := get_file_path fs instance_id mem_type false
            (fs1.setFile file_path (.text ""), Resp.crash)
  | _, _ => (fs, .err 400 "Missing 'type' or 'entry'")

/-- The guarded append endpoint: access gate, then `log_memory`. -/
def api_log_memory (keys : List String) (fs : FS) (auth_header : Option String)
    (body : JValue) (timestamp : String) : FS × Resp :=
  match require_api_key keys auth_header with
  | .error r => (fs, r)
  | .ok instance_id => log_memory fs instance_id body timestamp

/-- The guarded read endpoint: access gate, then `get_memory`. -/
def api_read_memory (keys : List String) (fs : FS) (auth_header : Option String)
    (type_param : Option String) : FS × Resp :=
  match require_api_key keys auth_header with
  | .error r => (fs, r)
  | .ok instance_id => get_memory fs instance_id type_param

/-- The guarded overwrite endpoint: access gate, then `overwrite_memory`. -/
def api_overwrite_memory (keys : List String) (fs : FS) (auth_header : Option String)
    (body : JValue) : FS × Resp :=
  match require_api_key keys auth_header with
  | .error r => (fs, r)
  | .ok instance_id => overwrite_memory fs instance_id body

/-! ### `automation_worker.py` -/

/-- The fixed category set the dispatcher polls. -/
def MEMORY_TYPES : List String := ["core", "notebook", "experience"]

/-- A handler invocation record: which bot, which polled category, which
declared module type, and the descriptor that was dispatched. -/
structure Event where
  bot : String
  memType : String
  moduleType : String
  descriptor : JValue

/-- The context passed to a handler: the current category and the cycle's
fetched memories for this bot. -/
structure Ctx where
  memType : String
  allMemory : List (String × Option JValue)

/-- An automation handler: may raise (modelled by `Except`); the registered
example handlers only print. -/
def HandlerFun := String → String → JValue → Ctx → Except String Unit

/-- `handle_email_monitor`: prints only. -/
def handle_email_monitor : HandlerFun := fun _ _ _ _ => .ok ()

/-- `handle_scheduled_message`: prints only. -/
def handle_scheduled_message : HandlerFun := fun _ _ _ _ => .ok ()

/-- `MODULE_HANDLERS`: the static module-type → handler registry. -/
def MODULE_HANDLERS : String → Option HandlerFun := fun t =>
  if t = "email-monitor" then some handle_email_monitor
  else if t = "scheduled-message" then some handle_scheduled_message
  else none

/-- One line of `whitelist.txt` as processed by the worker's `load_whitelist`:
same skipping rules; a comma line yields `(name, credential)`, a bare line
yields `(line, line)`. -/
def parseBotLine (line : String) : Option (String × String) :=
  let l := pyStrip line
  if l = "" then none
  else if l.data.head? = some '#' then none
  else if l.data.contains ',' then
    some (pyStrip (String.mk (beforeChar ',' l.data)),
          pyStrip (String.mk (afterChar ',' l.data)))
  else some (l, l)

/-- Python dict insertion for `bots[name] = key`: first occurrence keeps its
position, its value is updated. -/
def dictInsert : List (String × String) → String → String → List (String × String)
  | [], n, k => [(n, k)]
  | (n', k') :: rest, n, k =>
      if n' = n then (n, k) :: rest else (n', k') :: dictInsert rest n k

/-- The worker's `load_whitelist`: name → credential pairs; unreadable source
(caught) yields the empty mapping. -/
def load_whitelist_bots (src : Option String) : List (String × String) :=
  match src with
  | none => []
  | some content =>
      (splitChar '\n' content).foldl
        (fun bots line =>
          match parseBotLine line with
          | none => bots
          | some (n, k) => dictInsert bots n k)
        []

/-- The network as seen by the worker: for a credential and category, either
the `memory` payload of a 200 response, or any request/HTTP failure
(timeout, non-2xx from `raise_for_status`, connection error). -/
def Net := String → String → Except String JValue

/-- `api_get_memory`: its own `try` turns every failure into `None` (logged). -/
def api_get_memory (net : Net) (bot_key mem_type : String) : Option JValue :=
  match net bot_key mem_type with
  | .ok v => some v
  | .error _ => none

/-- How a fetched payload becomes a list of module descriptors: a dict is one
descriptor, a list is many, anything else none. -/
def modulesOf : JValue → List JValue
  | .obj fields => [.obj fields]
  | .arr l => l
  | _ => []

/-- `module.get("type") or module.get("module_type")`: the declared module
type of a dict descriptor (a falsy `type` value falls back to
`module_type`). -/
def declaredType (m : JValue) : Option JValue :=
  let t1 := jget m "type"
  if optTruthy t1 then t1 else jget m "module_type"

/-- On a non-dict descriptor `.get` raises `AttributeError`, which nothing
below the top-level `except` catches. -/
def moduleTypeOf : JValue → Except String (Option JValue)
  | .obj fields => .ok (declaredType (.obj fields))
  | _ => .error "AttributeError: get on non-dict module"

/-- Whether a value can be used as a Python dict key: JSON-derived lists and
dicts are unhashable, everything else here (None, bools, numbers, strings)
is hashable. -/
def hashableKey : Option JValue → Bool
  | some (.arr _) => false
  | some (.obj _) => false
  | _ => true

/-- `MODULE_HANDLERS.get(module_type)`: a string key is looked up (only a
string can match the registry's keys); a hashable non-string key is simply
absent; an unhashable key (a list or dict `type` value) makes `dict.get`
raise `TypeError`, which nothing below the top-level `except` catches. -/
def lookupHandler (handlers : String → Option HandlerFun) :
    Option JValue → Except String (Option (String × HandlerFun))
  | some (.str s) => .ok ((handlers s).map (fun h => (s, h)))
  | some (.arr _) => .error "TypeError: unhashable type: 'list'"
  | some (.obj _) => .error "TypeError: unhashable type: 'dict'"
  | _ => .ok none

/-- The inner `for module in modules` loop: returns the dispatch events that
happened and, if an exception escaped (classification on a non-dict
descriptor, a registry lookup on an unhashable key, or a handler raising),
the exception — which aborts everything after it in the cycle. -/
def runModules (handlers : String → Option HandlerFun)
    (bot_name bot_key mem_type : String) (allMemory : List (String × Option JValue)) :
    List JValue → List Event × Option String
  | [] => ([], none)
  | m :: rest =>
      match moduleTypeOf m with
      | .error e => ([], some e)
      | .ok mt? =>
          match lookupHandler handlers mt? with
          | .error e => ([], some e)
          | .ok none => runModules handlers bot_name bot_key mem_type allMemory rest
          | .ok (some (s, h)) =>
              let ev : Event := ⟨bot_name, mem_type, s, m⟩
              match h bot_name bot_key m ⟨mem_type, allMemory⟩ with
              | .error e => ([ev], some e)
              | .ok _ =>
                  let (evs, ab) :=
                    runModules handlers bot_name bot_key mem_type allMemory rest
                  (ev :: evs, ab)

/-- The `for mem_type, data in memories.items()` loop: falsy data is skipped;
an escaping exception aborts the remaining categories. -/
def runMems (handlers : String → Option HandlerFun) (bot_name bot_key : String)
    (allMemory : List (String × Option JValue)) :
    List (String × Option JValue) → List Event × Option String
  | [] => ([], none)
  | (mem_type, data?) :: rest =>
      match data? with
      | none => runMems handlers bot_name bot_key allMemory rest
      | some data =>
          if ¬ pyTruthy data then runMems handlers bot_name bot_key allMemory rest
          else
            let (evs, ab) :=
              runModules handlers bot_name bot_key mem_type allMemory (modulesOf data)
            match ab with
            | some e => (evs, some e)
            | none =>
                let (evs2, ab2) := runMems handlers bot_name bot_key allMemory rest
                (evs ++ evs2, ab2)

/-- `memories = {mem: api_get_memory(bot_key, mem) for mem in MEMORY_TYPES}`. -/
def botMemories (net : Net) (bot_key : String) : List (String × Option JValue) :=
  MEMORY_TYPES.map fun mem => (mem, api_get_memory net bot_key mem)

/-- The `for bot_name, bot_key in BOT_KEYS.items()` loop: each bot's three
categories are fetched first (each fetch failure isolated to `None` inside
`api_get_memory`); an escaping exception aborts the remaining bots. -/
def runBots (handlers : String → Option HandlerFun) (net : Net) :
    List (String × String) → List Event × Option String
  | [] => ([], none)
  | (bot_name, bot_key) :: rest =>
      let memories := botMemories net bot_key
      if memories.isEmpty then runBots handlers net rest
      else
        let (evs, ab) := runMems handlers bot_name bot_key memories memories
        match ab with
        | some e => (evs, some e)
        | none =>
            let (evs2, ab2) := runBots handlers net rest
            (evs ++ evs2, ab2)

/-- One iteration of the `while True` body of `run_automations`: reload the
whitelist, process every bot; the surrounding `try/except` catches an escaping
exception at cycle level (returned as the second component, logged), so the
process itself survives and the next cycle starts after the sleep. -/
def run_cycle (handlers : String → Option HandlerFun) (net : Net)
    (whitelist_src : Option String) : List Event × Option String :=
  runBots handlers net (load_whitelist_bots whitelist_src)

/-! ### Filesystem and path lemmas -/

theorem FS.makedirs_files (fs : FS) (d : String) :
    (fs.makedirs d).files = fs.files := by
  unfold FS.makedirs; split <;> rfl

theorem FS.setFile_files (fs : FS) (p : String) (d : FileData) (q : String) :
    (fs.setFile p d).files q = if q = p then some d else fs.files q := rfl

theorem get_file_path_eq (fs : FS) (i m : String) (b : Bool) :
    get_file_path fs i m b = (fs.makedirs (osJoin MEMORY_BASE i), filePathStr i m b) :=
  rfl

/-- Every path produced by `osJoin` ends with its second component. -/
theorem osJoin_data (a b : String) : ∃ pre, (osJoin a b).data = pre ++ b.data := by
  unfold osJoin
  split
  · exact ⟨[], rfl⟩
  · split
    · exact ⟨[], rfl⟩
    · split
      · exact ⟨a.data, String.data_append ..⟩
      · refine ⟨(a ++ "/").data, ?_⟩
        rw [String.data_append]

/-- The extension picked by `get_file_path`. -/
def extFor (mem_type : String) (as_json : Bool) : String :=
  if as_json then "json" else if mem_type ≠ "experience" then "txt" else "log"

theorem filePathStr_eq (i m : String) (b : Bool) :
    filePathStr i m b = osJoin (osJoin MEMORY_BASE i) (m ++ "." ++ extFor m b) := rfl

/-- The last character of a resolved path is the last character of its
extension. -/
theorem filePathStr_lastChar (i m : String) (b : Bool) :
    (filePathStr i m b).data.getLast? = (extFor m b).data.getLast? := by
  rw [filePathStr_eq]
  obtain ⟨pre, hpre⟩ := osJoin_data (osJoin MEMORY_BASE i) (m ++ "." ++ extFor m b)
  rw [hpre, String.data_append]
  have hne : (extFor m b).data ≠ [] := by
    unfold extFor; split
    · simp
    · split <;> simp
  rw [← List.append_assoc, List.getLast?_append_of_ne_nil _ hne]

/-- A structured path never coincides with a raw path: the extensions end in
different characters. -/
theorem filePathStr_json_ne_raw (i1 m1 i2 m2 : String) :
    filePathStr i1 m1 true ≠ filePathStr i2 m2 false := by
  intro h
  have hlast := congrArg (fun s => s.data.getLast?) h
  simp only [filePathStr_lastChar] at hlast
  unfold extFor at hlast
  by_cases hm : m2 ≠ "experience" <;> simp [hm] at hlast

/-- Splitting at a separator character that occurs in neither left part is
unambiguous. -/
theorem noslash_split (a : List Char) :
    ∀ (b x y : List Char), '/' ∉ a → '/' ∉ b →
      a ++ '/' :: x = b ++ '/' :: y → a = b ∧ x = y := by
  induction a with
  | nil =>
      intro b x y _ hb h
      cases b with
      | nil => simpa using h
      | cons c b' =>
          rw [List.nil_append, List.cons_append] at h
          obtain ⟨h1, _⟩ := List.cons.inj h
          subst h1
          exact absurd (List.mem_cons_self _ _) hb
  | cons c a' ih =>
      intro b x y ha hb h
      cases b with
      | nil =>
          rw [List.cons_append, List.nil_append] at h
          obtain ⟨h1, _⟩ := List.cons.inj h
          subst h1
          exact absurd (List.mem_cons_self _ _) ha
      | cons d b' =>
          rw [List.cons_append, List.cons_append] at h
          obtain ⟨h1, h2⟩ := List.cons.inj h
          subst h1
          have ha' : '/' ∉ a' := fun hm => ha (List.mem_cons_of_mem _ hm)
          have hb' : '/' ∉ b' := fun hm => hb (List.mem_cons_of_mem _ hm)
          obtain ⟨e1, e2⟩ := ih b' x y ha' hb' h2
          exact ⟨by rw [e1], e2⟩

/-- For a slash-free, nonempty tenant identity and a category that does not
start with `/`, the resolved path decomposes as
`memory_data/<tenant>/<category>.<ext>`. -/
theorem filePathStr_data_decomp (i m : String) (b : Bool)
    (hi : '/' ∉ i.data) (hine : i ≠ "") (hm : m.data.head? ≠ some '/') :
    (filePathStr i m b).data =
      "memory_data/".data ++ i.data ++ '/' :: (m ++ "." ++ extFor m b).data := by
  have hihead : i.data.head? ≠ some '/' := by
    intro h
    cases hd : i.data with
    | nil => rw [hd] at h; simp at h
    | cons c rest => rw [hd] at h; simp at h; subst h; exact hi (hd ▸ List.mem_cons_self _ _)
  have hdot : (".".data : List Char) = ['.'] := rfl
  have hfname : (m ++ "." ++ extFor m b).data.head? ≠ some '/' := by
    rw [String.data_append, String.data_append, hdot]
    cases hd : m.data with
    | nil => simp
    | cons c rest => rw [hd] at hm; simpa using hm
  have hinst : osJoin MEMORY_BASE i = "memory_data/" ++ i := by
    unfold osJoin MEMORY_BASE
    rw [if_neg (by simpa using hihead), if_neg (by simp), if_neg (by simp)]
    rfl
  have hilast : ("memory_data/" ++ i).data.getLast? ≠ some '/' := by
    rw [String.data_append,
        List.getLast?_append_of_ne_nil _ (by simpa [String.ext_iff] using hine)]
    intro h
    obtain ⟨hne, heq⟩ := List.mem_getLast?_eq_getLast (Option.mem_def.2 h)
    exact hi (heq ▸ List.getLast_mem hne)
  rw [filePathStr_eq, hinst]
  unfold osJoin
  rw [if_neg hfname, if_neg (by simp [String.ext_iff]), if_neg hilast]
  rw [String.data_append, String.data_append, String.data_append]
  simp

/-- Distinct slash-free tenant identities own disjoint path sets: a writer's
resolved path (any category) never equals a reader's resolved path whose
category is slash-free. -/
theorem filePathStr_cross_tenant_ne (i1 m1 : String) (b1 : Bool)
    (i2 m2 : String) (b2 : Bool)
    (h1 : '/' ∉ i1.data) (h1ne : i1 ≠ "") (h2 : '/' ∉ i2.data) (h2ne : i2 ≠ "")
    (h12 : i1 ≠ i2) (hm2 : '/' ∉ m2.data) :
    filePathStr i1 m1 b1 ≠ filePathStr i2 m2 b2 := by
  have hm2head : m2.data.head? ≠ some '/' := by
    intro h
    cases hd : m2.data with
    | nil => rw [hd] at h; simp at h
    | cons c rest =>
        rw [hd] at h; simp at h; subst h; exact hm2 (hd ▸ List.mem_cons_self _ _)
  have hd2 := filePathStr_data_decomp i2 m2 b2 h2 h2ne hm2head
  by_cases hm1 : m1.data.head? = some '/'
  · -- the writer's category is absolute: its path starts with '/', the
    -- reader's with 'm'
    intro h
    have habs : (filePathStr i1 m1 b1).data.head? = some '/' := by
      have hfname : (m1 ++ "." ++ extFor m1 b1).data.head? = some '/' := by
        rw [String.data_append, String.data_append]
        cases hd : m1.data with
        | nil => rw [hd] at hm1; simp at hm1
        | cons c rest => rw [hd] at hm1; simp at hm1 ⊢; simpa using hm1
      rw [filePathStr_eq]
      unfold osJoin
      rw [if_pos hfname]
      exact hfname
    have h2head : (filePathStr i2 m2 b2).data.head? = some 'm' := by
      rw [hd2]; rfl
    rw [h, h2head] at habs
    simp at habs
  · intro h
    have hd1 := filePathStr_data_decomp i1 m1 b1 h1 h1ne hm1
    have hdata : (filePathStr i1 m1 b1).data = (filePathStr i2 m2 b2).data := by
      rw [h]
    rw [hd1, hd2, List.append_assoc, List.append_assoc] at hdata
    have hcancel := List.append_cancel_left hdata
    have := noslash_split i1.data i2.data _ _ h1 h2 hcancel
    exact h12 (String.ext this.1)

/-! ### Endpoint effect lemmas -/

/-- Request body `{"type": cat, "entry": e}` (the common shape for stating
properties of the endpoints). -/
def reqBody (cat : String) (e : JValue) : JValue :=
  .obj [("type", .str cat), ("entry", e)]

theorem typeOfDefault_reqBody (cat : String) (e : JValue) :
    typeOfDefault (reqBody cat e) = cat := rfl

theorem entryOf_reqBody (cat : String) (e : JValue) (he : e ≠ .null) :
    entryOf (reqBody cat e) = some e := by
  cases e <;> simp [entryOf, reqBody, jget, List.lookup] <;> simp_all

/-- Effect of a structured (dict) append: the loaded array gains the stamped
entry at the structured path; nothing else changes. -/
theorem log_memory_obj (fs : FS) (iid ts : String) (body : JValue) (mt : String)
    (fields : List (String × JValue)) (l : List JValue)
    (ht : typeOfDefault body = mt) (he : entryOf body = some (.obj fields))
    (hl : loadLogs (fs.files (filePathStr iid mt true)) = some l) :
    ((log_memory fs iid body ts).1.files = fun q =>
        if q = filePathStr iid mt true
        then some (.json (.arr (l ++ [.obj (setKey fields "timestamp" (.str ts))])))
        else fs.files q) ∧
      (log_memory fs iid body ts).2 = .ok (.obj [("status", .str "logged")]) := by
  unfold log_memory
  rw [ht, he]
  simp only [get_file_path_eq, FS.makedirs_files, hl]
  exact ⟨funext fun q => by rw [FS.setFile_files, FS.makedirs_files], by trivial⟩

/-- Effect of a raw (non-dict) append: one formatted line is appended at the
raw path; nothing else changes. -/
theorem log_memory_raw (fs : FS) (iid ts : String) (body : JValue) (mt : String)
    (e : JValue) (ht : typeOfDefault body = mt) (he : entryOf body = some e)
    (ho : ∀ fl, e ≠ .obj fl) :
    ((log_memory fs iid body ts).1.files = fun q =>
        if q = filePathStr iid mt false
        then some (rawAppend (fs.files (filePathStr iid mt false))
                    ("[" ++ ts ++ "] " ++ pyStr e ++ "\n"))
        else fs.files q) ∧
      (log_memory fs iid body ts).2 = .ok (.obj [("status", .str "logged")]) := by
  unfold log_memory
  rw [ht, he]
  cases e with
  | obj fl => exact absurd rfl (ho fl)
  | null =>
      simp only [get_file_path_eq, FS.makedirs_files]
      exact ⟨funext fun q => by rw [FS.setFile_files, FS.makedirs_files], by trivial⟩
  | bool b =>
      simp only [get_file_path_eq, FS.makedirs_files]
      exact ⟨funext fun q => by rw [FS.setFile_files, FS.makedirs_files], by trivial⟩
  | num n =>
      simp only [get_file_path_eq, FS.makedirs_files]
      exact ⟨funext fun q => by rw [FS.setFile_files, FS.makedirs_files], by trivial⟩
  | str s =>
      simp only [get_file_path_eq, FS.makedirs_files]
      exact ⟨funext fun q => by rw [FS.setFile_files, FS.makedirs_files], by trivial⟩
  | arr l =>
      simp only [get_file_path_eq, FS.makedirs_files]
      exact ⟨funext fun q => by rw [FS.setFile_files, FS.makedirs_files], by trivial⟩

/-- A rejected append (missing/null entry) leaves the filesystem untouched. -/
theorem log_memory_no_entry (fs : FS) (iid ts : String) (body : JValue)
    (he : entryOf body = none) :
    log_memory fs iid body ts = (fs, .err 400 "Missing 'entry'") := by
  unfold log_memory
  rw [he]

/-- Effect of a structured overwrite (dict or list entry): the entry replaces
the structured file verbatim. -/
theorem overwrite_memory_structured (fs : FS) (iid : String) (body : JValue)
    (tv e : JValue) (ht : jget body "type" = some tv) (htr : pyTruthy tv = true)
    (he : entryOf body = some e)
    (hj : (∃ fl, e = .obj fl) ∨ (∃ l, e = .arr l)) :
    ((overwrite_memory fs iid body).1.files = fun q =>
        if q = filePathStr iid (pyStr tv) true then some (.json e)
        else fs.files q) ∧
      (overwrite_memory fs iid body).2 = .ok (.obj [("status", .str "overwritten")]) := by
  unfold overwrite_memory
  rw [ht, he]
  rcases hj with ⟨fl, rfl⟩ | ⟨l, rfl⟩ <;>
    · simp only [htr, not_true_eq_false, if_false, get_file_path_eq]
      exact ⟨funext fun q => by rw [FS.setFile_files, FS.makedirs_files], by trivial⟩

/-- Effect of a raw overwrite (string entry): the stripped text plus newline
replaces the raw file. -/
theorem overwrite_memory_str (fs : FS) (iid : String) (body : JValue)
    (tv : JValue) (s : String) (ht : jget body "type" = some tv)
    (htr : pyTruthy tv = true) (he : entryOf body = some (.str s)) :
    ((overwrite_memory fs iid body).1.files = fun q =>
        if q = filePathStr iid (pyStr tv) false then some (.text (pyStrip s ++ "\n"))
        else fs.files q) ∧
      (overwrite_memory fs iid body).2 = .ok (.obj [("status", .str "overwritten")]) := by
  unfold overwrite_memory
  rw [ht, he]
  simp only [htr, not_true_eq_false, if_false, get_file_path_eq]
  exact ⟨funext fun q => by rw [FS.setFile_files, FS.makedirs_files], by trivial⟩

/-- The pure read view: what `get_memory` answers over given file contents. -/
def read_view (f : String → Option FileData) (iid mt : String) : Resp :=
  match f (filePathStr iid mt true) with
  | some fd =>
      match fd.readJson with
      | some v => .ok (.obj [("memory", v), ("format", .str "json")])
      | none => Resp.crash
  | none =>
      match f (filePathStr iid mt false) with
      | some fd => .ok (.obj [("memory", .str fd.readText), ("format", .str "text")])
      | none => .err 404 "No memory found"

theorem get_memory_eq_view (fs : FS) (iid : String) (tp : Option String) :
    (get_memory fs iid tp).2 = read_view fs.files iid (tp.getD "experience") := by
  unfold get_memory read_view
  simp only [get_file_path_eq, FS.makedirs_files]
  rcases fs.files (filePathStr iid (tp.getD "experience") true) with _ | fd
  · rcases fs.files (filePathStr iid (tp.getD "experience") false) with _ | fd
    · rfl
    · rfl
  · rcases fd with v | s
    · rfl
    · rfl

/-- `get_memory` never modifies any file. -/
theorem get_memory_files (fs : FS) (iid : String) (tp : Option String) :
    (get_memory fs iid tp).1.files = fs.files := by
  unfold get_memory
  simp only [get_file_path_eq, FS.makedirs_files]
  rcases fs.files (filePathStr iid (tp.getD "experience") true) with _ | fd
  · rcases fs.files (filePathStr iid (tp.getD "experience") false) with _ | fd
    · show ((fs.makedirs (osJoin MEMORY_BASE iid)).makedirs (osJoin MEMORY_BASE iid)).files = _
      rw [FS.makedirs_files, FS.makedirs_files]
    · show ((fs.makedirs (osJoin MEMORY_BASE iid)).makedirs (osJoin MEMORY_BASE iid)).files = _
      rw [FS.makedirs_files, FS.makedirs_files]
  · rcases fd with v | s
    · show ((fs.makedirs (osJoin MEMORY_BASE iid)).makedirs (osJoin MEMORY_BASE iid)).files = _
      rw [FS.makedirs_files, FS.makedirs_files]
    · show ((fs.makedirs (osJoin MEMORY_BASE iid)).makedirs (osJoin MEMORY_BASE iid)).files = _
      rw [FS.makedirs_files, FS.makedirs_files]

/-! ### Frame lemmas: an operation by one tenant touches only that tenant's
resolved paths -/

/-- Crash branch of a structured append (existing JSON document that is not an
array): no file is written. -/
theorem log_memory_obj_crash (fs : FS) (iid ts : String) (body : JValue)
    (mt : String) (fields : List (String × JValue))
    (ht : typeOfDefault body = mt) (he : entryOf body = some (.obj fields))
    (hl : loadLogs (fs.files (filePathStr iid mt true)) = none) :
    log_memory fs iid body ts = (fs.makedirs (osJoin MEMORY_BASE iid), Resp.crash) := by
  unfold log_memory
  rw [ht, he]
  simp only [get_file_path_eq, FS.makedirs_files, hl]

/-- Rejected overwrite (missing/falsy type or missing entry): no effect. -/
theorem overwrite_memory_reject (fs : FS) (iid : String) (body : JValue)
    (h : jget body "type" = none ∨ entryOf body = none ∨
         (∃ tv, jget body "type" = some tv ∧ pyTruthy tv = false)) :
    overwrite_memory fs iid body = (fs, .err 400 "Missing 'type' or 'entry'") := by
  unfold overwrite_memory
  rcases h with h | h | ⟨tv, h1, h2⟩
  · rw [h]
  · rw [h]
    rcases jget body "type" with _ | tv
    · rfl
    · rfl
  · rw [h1]
    rcases he : entryOf body with _ | e
    · rfl
    · simp [h2]

/-- Crash branch of an overwrite (entry with no `.strip`, i.e. a number or
boolean): the raw file is truncated to empty before the exception. -/
theorem overwrite_memory_crash (fs : FS) (iid : String) (body : JValue)
    (tv e : JValue) (ht : jget body "type" = some tv) (htr : pyTruthy tv = true)
    (he : entryOf body = some e)
    (hc : (∃ n, e = .num n) ∨ (∃ b, e = .bool b)) :
    overwrite_memory fs iid body =
      ((fs.makedirs (osJoin MEMORY_BASE iid)).setFile
        (filePathStr iid (pyStr tv) false) (.text ""), Resp.crash) := by
  unfold overwrite_memory
  rw [ht, he]
  rcases hc with ⟨n, rfl⟩ | ⟨b, rfl⟩
  · simp only [htr, not_true_eq_false, if_false, get_file_path_eq]
  · simp only [htr, not_true_eq_false, if_false, get_file_path_eq]

/-- A `some null` entry is impossible: JSON `null` deserialises to Python
`None`, which `data.get("entry")` cannot distinguish from absence. -/
theorem entryOf_ne_null (body : JValue) : entryOf body ≠ some .null := by
  unfold entryOf
  rcases jget body "entry" with _ | v
  · simp
  · cases v <;> simp

/-- `log_memory` leaves every path other than the tenant's own resolved paths
untouched. -/
theorem log_memory_frame (fs : FS) (iid ts : String) (body : JValue) (p : String)
    (hp : ∀ mt b, p ≠ filePathStr iid mt b) :
    (log_memory fs iid body ts).1.files p = fs.files p := by
  cases he : entryOf body with
  | none => rw [log_memory_no_entry fs iid ts body he]
  | some e =>
      cases e with
      | obj fields =>
          cases hl : loadLogs (fs.files (filePathStr iid (typeOfDefault body) true)) with
          | none =>
              rw [log_memory_obj_crash fs iid ts body _ fields rfl he hl]
              exact congrFun (FS.makedirs_files ..) p
          | some l =>
              rw [congrFun (log_memory_obj fs iid ts body _ fields l rfl he hl).1 p,
                if_neg (hp _ true)]
      | null =>
          rw [congrFun (log_memory_raw fs iid ts body _ _ rfl he (by simp)).1 p,
            if_neg (hp _ false)]
      | bool b =>
          rw [congrFun (log_memory_raw fs iid ts body _ _ rfl he (by simp)).1 p,
            if_neg (hp _ false)]
      | num n =>
          rw [congrFun (log_memory_raw fs iid ts body _ _ rfl he (by simp)).1 p,
            if_neg (hp _ false)]
      | str s =>
          rw [congrFun (log_memory_raw fs iid ts body _ _ rfl he (by simp)).1 p,
            if_neg (hp _ false)]
      | arr l =>
          rw [congrFun (log_memory_raw fs iid ts body _ _ rfl he (by simp)).1 p,
            if_neg (hp _ false)]

/-- `overwrite_memory` leaves every path other than the tenant's own resolved
paths untouched. -/
theorem overwrite_memory_frame (fs : FS) (iid : String) (body : JValue) (p : String)
    (hp : ∀ mt b, p ≠ filePathStr iid mt b) :
    (overwrite_memory fs iid body).1.files p = fs.files p := by
  cases ht : jget body "type" with
  | none => rw [overwrite_memory_reject fs iid body (.inl ht)]
  | some tv =>
      cases htr : pyTruthy tv with
      | false =>
          rw [overwrite_memory_reject fs iid body (.inr (.inr ⟨tv, ht, htr⟩))]
      | true =>
          cases he : entryOf body with
          | none => rw [overwrite_memory_reject fs iid body (.inr (.inl he))]
          | some e =>
              cases e with
              | null => exact absurd he (entryOf_ne_null body)
              | obj fields =>
                  rw [congrFun (overwrite_memory_structured fs iid body tv _ ht htr he
                    (.inl ⟨fields, rfl⟩)).1 p, if_neg (hp _ true)]
              | arr l =>
                  rw [congrFun (overwrite_memory_structured fs iid body tv _ ht htr he
                    (.inr ⟨l, rfl⟩)).1 p, if_neg (hp _ true)]
              | str s =>
                  rw [congrFun (overwrite_memory_str fs iid body tv s ht htr he).1 p,
                    if_neg (hp _ false)]
              | num n =>
                  rw [overwrite_memory_crash fs iid body tv _ ht htr he (.inl ⟨n, rfl⟩)]
                  show ((fs.makedirs _).setFile _ _).files p = fs.files p
                  rw [FS.setFile_files, if_neg (hp _ false), FS.makedirs_files]
              | bool b =>
                  rw [overwrite_memory_crash fs iid body tv _ ht htr he (.inr ⟨b, rfl⟩)]
                  show ((fs.makedirs _).setFile _ _).files p = fs.files p
                  rw [FS.setFile_files, if_neg (hp _ false), FS.makedirs_files]

/-- One Memory API mutation by a tenant (the request body carries category and
entry; the timestamp is the server's). -/
inductive MemOp where
  | append (body : JValue) (timestamp : String) : MemOp
  | overwrite (body : JValue) : MemOp

/-- Apply one operation as a given tenant, keeping only the state. -/
def applyOp (fs : FS) (instance_id : String) : MemOp → FS
  | .append body ts => (log_memory fs instance_id body ts).1
  | .overwrite body => (overwrite_memory fs instance_id body).1

/-- Apply a sequence of operations as a given tenant. -/
def applyOps (fs : FS) (instance_id : String) (ops : List MemOp) : FS :=
  ops.foldl (fun s op => applyOp s instance_id op) fs

/-- The category an operation resolves its paths under, exactly as the
handlers extract it from the request body. -/
def MemOp.category : MemOp → String
  | .append body _ => typeOfDefault body
  | .overwrite body =>
      match jget body "type" with
      | some tv => pyStr tv
      | none => ""

theorem applyOp_frame (fs : FS) (iid : String) (op : MemOp) (p : String)
    (hp : ∀ mt b, p ≠ filePathStr iid mt b) :
    (applyOp fs iid op).files p = fs.files p := by
  cases op with
  | append body ts => exact log_memory_frame fs iid ts body p hp
  | overwrite body => exact overwrite_memory_frame fs iid body p hp

theorem applyOps_frame (ops : List MemOp) (fs : FS) (iid : String) (p : String)
    (hp : ∀ mt b, p ≠ filePathStr iid mt b) :
    (applyOps fs iid ops).files p = fs.files p := by
  induction ops generalizing fs with
  | nil => rfl
  | cons op rest ih =>
      show (applyOps (applyOp fs iid op) iid rest).files p = fs.files p
      rw [ih (applyOp fs iid op), applyOp_frame fs iid op p hp]

/-- The read view depends only on the two resolved paths it consults. -/
theorem read_view_congr (f g : String → Option FileData) (iid mt : String)
    (h1 : f (filePathStr iid mt true) = g (filePathStr iid mt true))
    (h2 : f (filePathStr iid mt false) = g (filePathStr iid mt false)) :
    read_view f iid mt = read_view g iid mt := by
  unfold read_view
  rw [h1, h2]

/-! ### Dispatcher lemmas -/

/-- The handlers registered in `MODULE_HANDLERS` never raise (they only
print). -/
theorem MODULE_HANDLERS_ok (s : String) (h : HandlerFun)
    (hh : MODULE_HANDLERS s = some h) (n k : String) (m : JValue) (c : Ctx) :
    h n k m c = .ok () := by
  unfold MODULE_HANDLERS at hh
  split at hh
  · cases hh; rfl
  · split at hh
    · cases hh; rfl
    · cases hh

theorem api_get_memory_eq_some (net : Net) (k mt : String) (d : JValue) :
    api_get_memory net k mt = some d ↔ net k mt = .ok d := by
  unfold api_get_memory
  cases net k mt <;> simp

/-- With non-raising handlers, a list of dict descriptors whose declared
module types are hashable is processed to the end (no escaping exception). -/
theorem runModules_ok (handlers : String → Option HandlerFun)
    (hok : ∀ s h, handlers s = some h → ∀ n k m c, h n k m c = .ok ())
    (n k mt : String) (am : List (String × Option JValue)) (mods : List JValue)
    (hm : ∀ m ∈ mods, (∃ fl, m = .obj fl) ∧ hashableKey (declaredType m) = true) :
    (runModules handlers n k mt am mods).2 = none := by
  induction mods with
  | nil => rfl
  | cons m rest ih =>
      obtain ⟨⟨fl, rfl⟩, hh⟩ := hm m (List.mem_cons_self _ _)
      have hrest : ∀ m ∈ rest, (∃ fl, m = .obj fl) ∧
          hashableKey (declaredType m) = true :=
        fun m hm' => hm m (List.mem_cons_of_mem _ hm')
      have ih' := ih hrest
      cases hmt : declaredType (.obj fl) with
      | none => simp [runModules, moduleTypeOf, hmt, lookupHandler, ih']
      | some tv =>
          rw [hmt] at hh
          cases tv with
          | arr l => simp [hashableKey] at hh
          | obj fields2 => simp [hashableKey] at hh
          | null => simp [runModules, moduleTypeOf, hmt, lookupHandler, ih']
          | bool b => simp [runModules, moduleTypeOf, hmt, lookupHandler, ih']
          | num nn => simp [runModules, moduleTypeOf, hmt, lookupHandler, ih']
          | str s =>
              cases hh2 : handlers s with
              | none => simp [runModules, moduleTypeOf, hmt, lookupHandler, hh2, ih']
              | some h =>
                  simp [runModules, moduleTypeOf, hmt, lookupHandler, hh2,
                    hok s h hh2, ih']

/-- With non-raising handlers and well-formed descriptors, a bot's whole
category map is processed to the end. -/
theorem runMems_ok (handlers : String → Option HandlerFun)
    (hok : ∀ s h, handlers s = some h → ∀ n k m c, h n k m c = .ok ())
    (n k : String) (am : List (String × Option JValue))
    (mems : List (String × Option JValue))
    (hm : ∀ mt d, (mt, some d) ∈ mems → pyTruthy d = true →
            ∀ m ∈ modulesOf d, (∃ fl, m = .obj fl) ∧
              hashableKey (declaredType m) = true) :
    (runMems handlers n k am mems).2 = none := by
  induction mems with
  | nil => rfl
  | cons md rest ih =>
      obtain ⟨mt, d?⟩ := md
      have hrest : ∀ mt d, (mt, some d) ∈ rest → pyTruthy d = true →
          ∀ m ∈ modulesOf d, (∃ fl, m = .obj fl) ∧
            hashableKey (declaredType m) = true :=
        fun mt d hmem => hm mt d (List.mem_cons_of_mem _ hmem)
      have ih' := ih hrest
      cases d? with
      | none => simpa [runMems] using ih'
      | some d =>
          cases htr : pyTruthy d with
          | false => simp [runMems, htr, ih']
          | true =>
              have hmods := hm mt d (List.mem_cons_self _ _) htr
              have hab := runModules_ok handlers hok n k mt am (modulesOf d) hmods
              rcases hmod : runModules handlers n k mt am (modulesOf d) with ⟨evs, ab⟩
              rw [hmod] at hab
              simp only at hab
              subst hab
              simp [runMems, htr, hmod, ih']

/-- With non-raising handlers and well-formed fetched descriptors, a whole
cycle runs to the end: every bot's dispatches happen, independently of any
pattern of fetch failures, and no exception escapes. -/
theorem runBots_ok (handlers : String → Option HandlerFun)
    (hok : ∀ s h, handlers s = some h → ∀ n k m c, h n k m c = .ok ()) (net : Net)
    (hwf : ∀ k mt v, net k mt = .ok v → pyTruthy v = true →
             ∀ m ∈ modulesOf v, (∃ fl, m = .obj fl) ∧
               hashableKey (declaredType m) = true) :
    ∀ bots, runBots handlers net bots =
      (bots.flatMap (fun bk =>
        (runMems handlers bk.1 bk.2 (botMemories net bk.2) (botMemories net bk.2)).1),
       none) := by
  intro bots
  induction bots with
  | nil => rfl
  | cons bk rest ih =>
      obtain ⟨bn, bkey⟩ := bk
      have hmem : ∀ mt d, (mt, some d) ∈ botMemories net bkey → pyTruthy d = true →
          ∀ m ∈ modulesOf d, (∃ fl, m = .obj fl) ∧
            hashableKey (declaredType m) = true := by
        intro mt d hmemb htr
        unfold botMemories at hmemb
        rw [List.mem_map] at hmemb
        obtain ⟨mem, _, heq⟩ := hmemb
        injection heq with e1 e2
        subst e1
        exact hwf bkey mem d ((api_get_memory_eq_some net bkey mem d).1 e2) htr
      have hab := runMems_ok handlers hok bn bkey (botMemories net bkey)
        (botMemories net bkey) hmem
      rcases hmod : runMems handlers bn bkey (botMemories net bkey)
          (botMemories net bkey) with ⟨evs, ab⟩
      rw [hmod] at hab
      simp only at hab
      subst hab
      have hne : (botMemories net bkey).isEmpty = false := rfl
      simp [runBots, hne, hmod, ih]

/-! ### Claim theorems -/

theorem FS.mem_makedirs (fs : FS) (d : String) : d ∈ (fs.makedirs d).dirs := by
  unfold FS.makedirs
  by_cases h : d ∈ fs.dirs
  · rw [if_pos h]; exact h
  · rw [if_neg h]; exact List.mem_cons_self _ _

theorem FS.makedirs_idem (fs : FS) (d : String) :
    (fs.makedirs d).makedirs d = fs.makedirs d := by
  have h := FS.mem_makedirs fs d
  show (if d ∈ (fs.makedirs d).dirs then fs.makedirs d
        else { fs.makedirs d with dirs := d :: (fs.makedirs d).dirs }) = fs.makedirs d
  rw [if_pos h]

/-- C8: the resolved storage location uses extension `json` when structured,
else `txt`, except the category exactly "experience" which uses `log` when
raw; resolution creates the tenant's namespace directory (idempotently) and
touches no file. -/
theorem resolve_path_spec (fs : FS) (iid mt : String) (b : Bool) :
    (b = true → (get_file_path fs iid mt b).2 =
        osJoin (osJoin MEMORY_BASE iid) (mt ++ "." ++ "json")) ∧
    (b = false → mt ≠ "experience" → (get_file_path fs iid mt b).2 =
        osJoin (osJoin MEMORY_BASE iid) (mt ++ "." ++ "txt")) ∧
    (b = false → mt = "experience" → (get_file_path fs iid mt b).2 =
        osJoin (osJoin MEMORY_BASE iid) (mt ++ "." ++ "log")) ∧
    osJoin MEMORY_BASE iid ∈ (get_file_path fs iid mt b).1.dirs ∧
    get_file_path (get_file_path fs iid mt b).1 iid mt b = get_file_path fs iid mt b ∧
    (get_file_path fs iid mt b).1.files = fs.files := by
  refine ⟨?_, ?_, ?_, ?_, ?_, ?_⟩
  · rintro rfl
    rw [get_file_path_eq, filePathStr_eq]
    unfold extFor
    rw [if_pos rfl]
  · rintro rfl hmt
    rw [get_file_path_eq, filePathStr_eq]
    unfold extFor
    rw [if_neg (by simp), if_pos hmt]
  · rintro rfl hmt
    rw [get_file_path_eq, filePathStr_eq]
    unfold extFor
    rw [if_neg (by simp), if_neg (by simp [hmt])]
  · exact FS.mem_makedirs fs _
  · simp only [get_file_path_eq, FS.makedirs_idem]
  · rw [get_file_path_eq, FS.makedirs_files]

theorem resolve_path_spec_witness :
    (get_file_path FS.initial "alice" "notes" false).2 = "memory_data/alice/notes.txt" ∧
    (get_file_path FS.initial "alice" "experience" false).2 =
      "memory_data/alice/experience.log" ∧
    (get_file_path FS.initial "alice" "notes" true).2 = "memory_data/alice/notes.json" ∧
    osJoin MEMORY_BASE "alice" ∈ (get_file_path FS.initial "alice" "notes" false).1.dirs := by
  refine ⟨?_, ?_, ?_, (resolve_path_spec FS.initial "alice" "notes" false).2.2.2.1⟩
  · rw [(resolve_path_spec FS.initial "alice" "notes" false).2.1 rfl (by decide)]
    decide
  · rw [(resolve_path_spec FS.initial "alice" "experience" false).2.2.1 rfl rfl]
    decide
  · rw [(resolve_path_spec FS.initial "alice" "notes" true).1 rfl]
    decide

/-- C3: read precedence — if the structured file exists (and parses), its
payload is returned tagged `json`, regardless of the raw file; else the raw
file's text tagged `text`; else 404. -/
theorem read_precedence_spec (fs : FS) (iid mt : String) :
    (∀ fd v, fs.files (filePathStr iid mt true) = some fd → fd.readJson = some v →
        (get_memory fs iid (some mt)).2 =
          .ok (.obj [("memory", v), ("format", .str "json")])) ∧
    (fs.files (filePathStr iid mt true) = none →
      ∀ fd, fs.files (filePathStr iid mt false) = some fd →
        (get_memory fs iid (some mt)).2 =
          .ok (.obj [("memory", .str fd.readText), ("format", .str "text")])) ∧
    (fs.files (filePathStr iid mt true) = none →
      fs.files (filePathStr iid mt false) = none →
        (get_memory fs iid (some mt)).2 = .err 404 "No memory found") := by
  refine ⟨?_, ?_, ?_⟩
  · intro fd v h1 h2
    rw [get_memory_eq_view]
    unfold read_view
    rw [Option.getD_some, h1]
    rcases fd with v' | s'
    · simp only [FileData.readJson] at h2
      injection h2 with h2'
      subst h2'
      rfl
    · simp [FileData.readJson] at h2
  · intro h1 fd h2
    rw [get_memory_eq_view]
    unfold read_view
    rw [Option.getD_some, h1, h2]
  · intro h1 h2
    rw [get_memory_eq_view]
    unfold read_view
    rw [Option.getD_some, h1, h2]

theorem read_precedence_spec_witness :
    (get_memory
      ((FS.initial.setFile (filePathStr "t" "core" true) (.json (.num 7))).setFile
        (filePathStr "t" "core" false) (.text "raw line"))
      "t" (some "core")).2 =
      .ok (.obj [("memory", .num 7), ("format", .str "json")]) :=
  (read_precedence_spec _ "t" "core").1 (.json (.num 7)) (.num 7) (by rfl) rfl

/-- C6: every Memory API operation rejects a missing or non-Bearer
`Authorization` header with 401 and an unknown credential with 403, in both
cases with the filesystem unchanged and the response independent of it. -/
theorem access_gate_spec (keys : List String) (fs : FS) (hdr : Option String)
    (body : JValue) (ts : String) (tp : Option String) :
    (∀ r, require_api_key keys hdr = .error r →
       api_log_memory keys fs hdr body ts = (fs, r) ∧
       api_read_memory keys fs hdr tp = (fs, r) ∧
       api_overwrite_memory keys fs hdr body = (fs, r)) ∧
    (hdr = none → require_api_key keys hdr =
       .error (.err 401 "Missing or invalid Authorization header")) ∧
    (∀ h, hdr = some h → hasPrefixChars h.data "Bearer ".data = false →
       require_api_key keys hdr =
         .error (.err 401 "Missing or invalid Authorization header")) ∧
    (∀ h, hdr = some h → hasPrefixChars h.data "Bearer ".data = true →
       (splitChar ' ' h).getD 1 "" ∉ keys →
       require_api_key keys hdr = .error (.err 403 "Unauthorized")) := by
  refine ⟨?_, ?_, ?_, ?_⟩
  · intro r hr
    unfold api_log_memory api_read_memory api_overwrite_memory
    rw [hr]
    exact ⟨rfl, rfl, rfl⟩
  · rintro rfl
    rfl
  · rintro h rfl hs
    simp [require_api_key, hs]
  · rintro h rfl hs hk
    simp only [List.getD, List.get?_eq_getElem?] at hk
    simp [require_api_key, hs, hk]

theorem access_gate_spec_witness :
    api_log_memory ["k1"] FS.initial (some "Bearer nope") (.obj []) "t" =
      (FS.initial, .err 403 "Unauthorized") ∧
    api_read_memory ["k1"] FS.initial none (some "core") =
      (FS.initial, .err 401 "Missing or invalid Authorization header") ∧
    api_overwrite_memory ["k1"] FS.initial (some "basic k1") (.obj []) =
      (FS.initial, .err 401 "Missing or invalid Authorization header") := by
  refine ⟨?_, ?_, ?_⟩
  · exact ((access_gate_spec ["k1"] FS.initial (some "Bearer nope") (.obj []) "t"
      (some "core")).1 _ (by rfl)).1
  · exact (((access_gate_spec ["k1"] FS.initial none (.obj []) "t"
      (some "core")).1 _ (by rfl)).2).1
  · exact (((access_gate_spec ["k1"] FS.initial (some "basic k1") (.obj []) "t"
      (some "core")).1 _ (by rfl)).2).2

/-- Membership in the whitelist fold. -/
theorem mem_whitelist_foldl (k : String) :
    ∀ (lines acc : List String),
      (k ∈ lines.foldl (fun keys line =>
          match parseKeyLine line with
          | none => keys
          | some k' => if k' ∈ keys then keys else keys ++ [k']) acc ↔
       k ∈ acc ∨ ∃ line ∈ lines, parseKeyLine line = some k) := by
  intro lines
  induction lines with
  | nil => intro acc; simp
  | cons line rest ih =>
      intro acc
      rw [List.foldl_cons]
      cases hp : parseKeyLine line with
      | none =>
          simp only [hp]
          rw [ih acc]
          simp [hp]
      | some k' =>
          simp only [hp]
          by_cases hin : k' ∈ acc
          · rw [if_pos hin, ih acc]
            simp only [List.mem_cons, hp]
            constructor
            · rintro (h | ⟨l', hl', hpl⟩)
              · exact .inl h
              · exact .inr ⟨l', .inr hl', hpl⟩
            · rintro (h | ⟨l', (rfl | hl'), hpl⟩)
              · exact .inl h
              · rw [hp] at hpl
                injection hpl with hpl'
                exact .inl (hpl' ▸ hin)
              · exact .inr ⟨l', hl', hpl⟩
          · rw [if_neg hin, ih (acc ++ [k'])]
            simp only [List.mem_append, List.mem_cons, hp]
            constructor
            · rintro ((h | h) | ⟨l', hl', hpl⟩)
              · exact .inl h
              · rcases h with rfl | h
                · exact .inr ⟨line, .inl rfl, hp⟩
                · simp at h
              · exact .inr ⟨l', .inr hl', hpl⟩
            · rintro (h | ⟨l', (rfl | hl'), hpl⟩)
              · exact .inl (.inl h)
              · rw [hp] at hpl
                injection hpl with hpl'
                exact .inl (.inr (.inl hpl'.symm))
              · exact .inr ⟨l', hl', hpl⟩

/-- C9: loading the key registry never raises: an unreadable source yields the
empty registry (after which every well-formed credential is rejected 403);
otherwise blank and `#` lines contribute nothing, a comma line contributes the
text after its first comma (stripped), and any other line contributes the
whole stripped line. -/
theorem key_registry_spec :
    load_whitelist none = [] ∧
    (∀ h : String, hasPrefixChars h.data "Bearer ".data = true →
      require_api_key (load_whitelist none) (some h) =
        .error (.err 403 "Unauthorized")) ∧
    (∀ src k, k ∈ load_whitelist (some src) ↔
      ∃ line ∈ splitChar '\n' src, parseKeyLine line = some k) ∧
    (∀ line, pyStrip line = "" → parseKeyLine line = none) ∧
    (∀ line, (pyStrip line).data.head? = some '#' → parseKeyLine line = none) ∧
    (∀ line, pyStrip line ≠ "" → (pyStrip line).data.head? ≠ some '#' →
      (pyStrip line).data.contains ',' = true →
      parseKeyLine line = some (pyStrip (String.mk (afterChar ',' (pyStrip line).data)))) ∧
    (∀ line, pyStrip line ≠ "" → (pyStrip line).data.head? ≠ some '#' →
      (pyStrip line).data.contains ',' = false →
      parseKeyLine line = some (pyStrip line)) := by
  refine ⟨rfl, ?_, ?_, ?_, ?_, ?_, ?_⟩
  · intro h hs
    simp [load_whitelist, require_api_key, hs]
  · intro src k
    show k ∈ (splitChar '\n' src).foldl _ [] ↔ _
    rw [mem_whitelist_foldl k (splitChar '\n' src) []]
    simp
  · intro line hl
    unfold parseKeyLine
    rw [if_pos hl]
  · intro line hl
    unfold parseKeyLine
    by_cases h0 : pyStrip line = ""
    · rw [if_pos h0]
    · rw [if_neg h0, if_pos hl]
  · intro line h0 h1 h2
    unfold parseKeyLine
    rw [if_neg h0, if_neg h1, if_pos h2]
  · intro line h0 h1 h2
    unfold parseKeyLine
    rw [if_neg h0, if_neg h1, if_neg (by rw [h2]; simp)]

theorem key_registry_spec_witness :
    "key1" ∈ load_whitelist (some "# comment\nalice, key1\nbarekey\n") ∧
    require_api_key (load_whitelist none) (some "Bearer anything") =
      .error (.err 403 "Unauthorized") ∧
    parseKeyLine "  name, cred, extra " = some "cred, extra" := by
  refine ⟨?_, key_registry_spec.2.1 "Bearer anything" (by decide), ?_⟩
  · exact (key_registry_spec.2.2.1 "# comment\nalice, key1\nbarekey\n" "key1").2
      ⟨"alice, key1", by decide, by decide⟩
  · exact key_registry_spec.2.2.2.2.2.1 "  name, cred, extra " (by decide) (by decide)
      (by decide)

/-- C10: append and overwrite classify a list entry differently — append
treats it as raw (one formatted `[timestamp] <repr>` line in the text/log
file, structured file untouched), overwrite treats it as structured (JSON at
the structured file, raw file untouched); only a dict entry is appended to
the structured file. -/
theorem list_entry_classification (fs : FS) (iid cat ts : String) (l : List JValue) :
    ((log_memory fs iid (reqBody cat (.arr l)) ts).1.files (filePathStr iid cat false) =
        some (rawAppend (fs.files (filePathStr iid cat false))
          ("[" ++ ts ++ "] " ++ pyStr (.arr l) ++ "\n"))) ∧
    ((log_memory fs iid (reqBody cat (.arr l)) ts).1.files (filePathStr iid cat true) =
        fs.files (filePathStr iid cat true)) ∧
    (cat ≠ "" →
      (overwrite_memory fs iid (reqBody cat (.arr l))).1.files (filePathStr iid cat true) =
        some (.json (.arr l))) ∧
    (cat ≠ "" →
      (overwrite_memory fs iid (reqBody cat (.arr l))).1.files (filePathStr iid cat false) =
        fs.files (filePathStr iid cat false)) ∧
    (∀ (fields : List (String × JValue)) (lg : List JValue),
      loadLogs (fs.files (filePathStr iid cat true)) = some lg →
      (log_memory fs iid (reqBody cat (.obj fields)) ts).1.files (filePathStr iid cat true) =
        some (.json (.arr (lg ++ [.obj (setKey fields "timestamp" (.str ts))]))) ∧
      (log_memory fs iid (reqBody cat (.obj fields)) ts).1.files (filePathStr iid cat false) =
        fs.files (filePathStr iid cat false)) := by
  have hraw := (log_memory_raw fs iid ts (reqBody cat (.arr l)) cat (.arr l)
    (typeOfDefault_reqBody cat _) (entryOf_reqBody cat _ (by simp)) (by simp)).1
  refine ⟨?_, ?_, ?_, ?_, ?_⟩
  · rw [congrFun hraw _, if_pos rfl]
  · rw [congrFun hraw _, if_neg (filePathStr_json_ne_raw iid cat iid cat)]
  · intro hcat
    have hover := (overwrite_memory_structured fs iid (reqBody cat (.arr l))
      (.str cat) (.arr l) rfl (by simp [pyTruthy, hcat])
      (entryOf_reqBody cat _ (by simp)) (.inr ⟨l, rfl⟩)).1
    rw [show pyStr (.str cat) = cat from rfl] at hover
    rw [congrFun hover _, if_pos rfl]
  · intro hcat
    have hover := (overwrite_memory_structured fs iid (reqBody cat (.arr l))
      (.str cat) (.arr l) rfl (by simp [pyTruthy, hcat])
      (entryOf_reqBody cat _ (by simp)) (.inr ⟨l, rfl⟩)).1
    rw [show pyStr (.str cat) = cat from rfl] at hover
    rw [congrFun hover _, if_neg (Ne.symm (filePathStr_json_ne_raw iid cat iid cat))]
  · intro fields lg hlg
    have hobj := (log_memory_obj fs iid ts (reqBody cat (.obj fields)) cat fields lg
      (typeOfDefault_reqBody cat _) (entryOf_reqBody cat _ (by simp)) hlg).1
    constructor
    · rw [congrFun hobj _, if_pos rfl]
    · rw [congrFun hobj _, if_neg (Ne.symm (filePathStr_json_ne_raw iid cat iid cat))]

theorem list_entry_classification_witness :
    (log_memory FS.initial "t" (reqBody "core" (.arr [.num 1, .str "a"])) "T").1.files
        (filePathStr "t" "core" false) =
      some (.text "[T] [1, 'a']\n") ∧
    (overwrite_memory FS.initial "t" (reqBody "core" (.arr [.num 1, .str "a"]))).1.files
        (filePathStr "t" "core" true) =
      some (.json (.arr [.num 1, .str "a"])) := by
  have h := list_entry_classification FS.initial "t" "core" "T" [.num 1, .str "a"]
  refine ⟨?_, h.2.2.1 (by decide)⟩
  rw [h.1]
  simp only [pyStr, pyRepr, pyReprList]
  rfl

/-- Iterated structured appends of `{"type": cat, "entry": <fields>}`,
timestamped by the server. -/
def appendStructured (fs : FS) (iid cat : String)
    (entries : List (List (String × JValue) × String)) : FS :=
  entries.foldl (fun s e => (log_memory s iid (reqBody cat (.obj e.1)) e.2).1) fs

/-- The entries as stored: each stamped with its timestamp. -/
def stamped (entries : List (List (String × JValue) × String)) : List JValue :=
  entries.map fun e => .obj (setKey e.1 "timestamp" (.str e.2))

theorem appendStructured_files (iid cat : String) :
    ∀ (entries : List (List (String × JValue) × String)) (fs : FS) (l : List JValue),
      fs.files (filePathStr iid cat true) = some (.json (.arr l)) →
      (appendStructured fs iid cat entries).files (filePathStr iid cat true) =
        some (.json (.arr (l ++ stamped entries))) := by
  intro entries
  induction entries with
  | nil => intro fs l h; simpa [appendStructured, stamped] using h
  | cons e rest ih =>
      intro fs l h
      have heff := (log_memory_obj fs iid e.2 (reqBody cat (.obj e.1)) cat e.1 l
        (typeOfDefault_reqBody cat _) (entryOf_reqBody cat _ (by simp))
        (by rw [h]; rfl)).1
      have hnew : (log_memory fs iid (reqBody cat (.obj e.1)) e.2).1.files
          (filePathStr iid cat true) =
          some (.json (.arr (l ++ [.obj (setKey e.1 "timestamp" (.str e.2))]))) := by
        rw [congrFun heff _, if_pos rfl]
      show (appendStructured (log_memory fs iid (reqBody cat (.obj e.1)) e.2).1
          iid cat rest).files (filePathStr iid cat true) = _
      rw [ih _ _ hnew]
      simp [stamped, List.append_assoc]

/-- C5: structured appends to a fresh (or unparseable) structured file are
read back as the JSON array of exactly those entries in append order, each
stamped with its server-assigned timestamp. -/
theorem structured_appends_read (fs : FS) (iid cat : String)
    (entries : List (List (String × JValue) × String)) (hne : entries ≠ [])
    (hfresh : loadLogs (fs.files (filePathStr iid cat true)) = some []) :
    (get_memory (appendStructured fs iid cat entries) iid (some cat)).2 =
      .ok (.obj [("memory", .arr (stamped entries)), ("format", .str "json")]) := by
  obtain ⟨e, rest, rfl⟩ := List.exists_cons_of_ne_nil hne
  have heff := (log_memory_obj fs iid e.2 (reqBody cat (.obj e.1)) cat e.1 []
    (typeOfDefault_reqBody cat _) (entryOf_reqBody cat _ (by simp)) hfresh).1
  have hnew : (log_memory fs iid (reqBody cat (.obj e.1)) e.2).1.files
      (filePathStr iid cat true) =
      some (.json (.arr ([] ++ [.obj (setKey e.1 "timestamp" (.str e.2))]))) := by
    rw [congrFun heff _, if_pos rfl]
  have hfinal := appendStructured_files iid cat rest _ _ hnew
  rw [show appendStructured fs iid cat (e :: rest) =
    appendStructured (log_memory fs iid (reqBody cat (.obj e.1)) e.2).1 iid cat rest
    from rfl]
  rw [get_memory_eq_view]
  unfold read_view
  rw [Option.getD_some, hfinal]
  show Resp.ok _ = _
  simp [stamped]

theorem structured_appends_read_witness :
    (get_memory (appendStructured FS.initial "t" "core"
        [([("fact", .str "x")], "T1"), ([("fact", .str "x")], "T2")]) "t"
      (some "core")).2 =
      .ok (.obj [("memory", .arr
        [.obj [("fact", .str "x"), ("timestamp", .str "T1")],
         .obj [("fact", .str "x"), ("timestamp", .str "T2")]]),
        ("format", .str "json")]) := by
  have h := structured_appends_read FS.initial "t" "core"
    [([("fact", .str "x")], "T1"), ([("fact", .str "x")], "T2")] (by simp) rfl
  rw [h]
  rfl

/-- Iterated raw appends of `{"entry": s}` with no `type` field (so the
category defaults to "experience"). -/
def appendRaw (fs : FS) (iid : String) (pairs : List (String × String)) : FS :=
  pairs.foldl (fun s p => (log_memory s iid (.obj [("entry", .str p.1)]) p.2).1) fs

/-- The raw log produced by a sequence of (text, timestamp) appends. -/
def logLines : List (String × String) → String
  | [] => ""
  | p :: rest => "[" ++ p.2 ++ "] " ++ p.1 ++ "\n" ++ logLines rest

theorem appendRaw_files (iid : String) :
    ∀ (pairs : List (String × String)) (fs : FS) (t : String),
      fs.files (filePathStr iid "experience" false) = some (.text t) →
      (appendRaw fs iid pairs).files (filePathStr iid "experience" false) =
        some (.text (t ++ logLines pairs)) ∧
      (appendRaw fs iid pairs).files (filePathStr iid "experience" true) =
        fs.files (filePathStr iid "experience" true) := by
  intro pairs
  induction pairs with
  | nil =>
      intro fs t h
      constructor
      · show fs.files _ = _
        rw [h, logLines]
        rw [String.append_empty]
      · rfl
  | cons p rest ih =>
      intro fs t h
      have heff := (log_memory_raw fs iid p.2 (.obj [("entry", .str p.1)])
        "experience" (.str p.1) rfl rfl (by simp)).1
      have hnew : (log_memory fs iid (.obj [("entry", .str p.1)]) p.2).1.files
          (filePathStr iid "experience" false) =
          some (.text (t ++ ("[" ++ p.2 ++ "] " ++ p.1 ++ "\n"))) := by
        rw [congrFun heff _, if_pos rfl, h]
        rfl
      have hjson : (log_memory fs iid (.obj [("entry", .str p.1)]) p.2).1.files
          (filePathStr iid "experience" true) =
          fs.files (filePathStr iid "experience" true) := by
        rw [congrFun heff _,
          if_neg (filePathStr_json_ne_raw iid "experience" iid "experience")]
      obtain ⟨h1, h2⟩ := ih _ _ hnew
      constructor
      · show (appendRaw (log_memory fs iid (.obj [("entry", .str p.1)]) p.2).1
          iid rest).files _ = _
        rw [h1, logLines]
        rw [String.append_assoc]
      · show (appendRaw (log_memory fs iid (.obj [("entry", .str p.1)]) p.2).1
          iid rest).files _ = _
        rw [h2, hjson]

/-- C7: a plain-string append with no `type` field is stored under category
"experience" as one raw `[timestamp] text` line (in the log file), and a read
of type "experience" returns format "text" with the concatenation of those
lines in append order. -/
theorem raw_default_append_read (fs : FS) (iid : String)
    (pairs : List (String × String)) (hne : pairs ≠ [])
    (hjson : fs.files (filePathStr iid "experience" true) = none)
    (htxt : fs.files (filePathStr iid "experience" false) = none) :
    (appendRaw fs iid pairs).files (filePathStr iid "experience" false) =
      some (.text (logLines pairs)) ∧
    (get_memory (appendRaw fs iid pairs) iid (some "experience")).2 =
      .ok (.obj [("memory", .str (logLines pairs)), ("format", .str "text")]) := by
  obtain ⟨p, rest, rfl⟩ := List.exists_cons_of_ne_nil hne
  have heff := (log_memory_raw fs iid p.2 (.obj [("entry", .str p.1)])
    "experience" (.str p.1) rfl rfl (by simp)).1
  have hnew : (log_memory fs iid (.obj [("entry", .str p.1)]) p.2).1.files
      (filePathStr iid "experience" false) =
      some (.text ("[" ++ p.2 ++ "] " ++ p.1 ++ "\n")) := by
    rw [congrFun heff _, if_pos rfl, htxt]
    rfl
  have hjson1 : (log_memory fs iid (.obj [("entry", .str p.1)]) p.2).1.files
      (filePathStr iid "experience" true) = none := by
    rw [congrFun heff _,
      if_neg (filePathStr_json_ne_raw iid "experience" iid "experience"), hjson]
  obtain ⟨h1, h2⟩ := appendRaw_files iid rest _ _ hnew
  rw [hjson1] at h2
  have hshow : appendRaw fs iid (p :: rest) =
      appendRaw (log_memory fs iid (.obj [("entry", .str p.1)]) p.2).1 iid rest := rfl
  constructor
  · rw [hshow, h1, logLines]
  · rw [get_memory_eq_view]
    unfold read_view
    rw [Option.getD_some, hshow, h2, h1]
    rw [show logLines (p :: rest) =
      ("[" ++ p.2 ++ "] " ++ p.1 ++ "\n") ++ logLines rest from rfl]
    rfl

theorem raw_default_append_read_witness :
    (get_memory (appendRaw FS.initial "t" [("hello", "T")]) "t"
      (some "experience")).2 =
      .ok (.obj [("memory", .str "[T] hello\n"), ("format", .str "text")]) := by
  have h := (raw_default_append_read FS.initial "t" [("hello", "T")]
    (by simp) rfl rfl).2
  rw [h]
  rfl

/-- C1 counterexample: append a dict entry A, overwrite with a string entry B,
then read — the read returns A's structured array (the stale structured file
shadows the freshly written raw file), not B. -/
theorem overwrite_stale_counterexample :
    (get_memory
      (overwrite_memory
        (log_memory FS.initial "t" (reqBody "core" (.obj [("a", .num 1)])) "T1").1
        "t" (reqBody "core" (.str "hello"))).1
      "t" (some "core")).2 =
      .ok (.obj [("memory", .arr [.obj [("a", .num 1), ("timestamp", .str "T1")]]),
        ("format", .str "json")]) ∧
    (get_memory
      (overwrite_memory
        (log_memory FS.initial "t" (reqBody "core" (.obj [("a", .num 1)])) "T1").1
        "t" (reqBody "core" (.str "hello"))).1
      "t" (some "core")).2 ≠
      .ok (.obj [("memory", .str ("hello" ++ "\n")), ("format", .str "text")]) := by
  constructor
  · rfl
  · intro h
    rw [show (get_memory
      (overwrite_memory
        (log_memory FS.initial "t" (reqBody "core" (.obj [("a", .num 1)])) "T1").1
        "t" (reqBody "core" (.str "hello"))).1
      "t" (some "core")).2 =
      .ok (.obj [("memory", .arr [.obj [("a", .num 1), ("timestamp", .str "T1")]]),
        ("format", .str "json")]) from rfl] at h
    simp at h

/-- C1 (amended): after appending A and overwriting with B on a fresh
(tenant, category), a read returns only B whenever B is structured (dict or
list) or whenever A was not a dict; but when A was a dict and B a string, the
read returns A's stale structured array instead of B. -/
theorem overwrite_after_append (fs : FS) (iid cat ts : String) (A B : JValue)
    (hcat : cat ≠ "")
    (hfj : fs.files (filePathStr iid cat true) = none)
    (hft : fs.files (filePathStr iid cat false) = none) :
    ((∃ bf, B = .obj bf) ∨ (∃ bl, B = .arr bl) →
      (get_memory (overwrite_memory (log_memory fs iid (reqBody cat A) ts).1 iid
          (reqBody cat B)).1 iid (some cat)).2 =
        .ok (.obj [("memory", B), ("format", .str "json")])) ∧
    (∀ bs, B = .str bs → (∀ af, A ≠ .obj af) →
      (get_memory (overwrite_memory (log_memory fs iid (reqBody cat A) ts).1 iid
          (reqBody cat B)).1 iid (some cat)).2 =
        .ok (.obj [("memory", .str (pyStrip bs ++ "\n")), ("format", .str "text")])) ∧
    (∀ bs af, B = .str bs → A = .obj af →
      (get_memory (overwrite_memory (log_memory fs iid (reqBody cat A) ts).1 iid
          (reqBody cat B)).1 iid (some cat)).2 =
        .ok (.obj [("memory", .arr [.obj (setKey af "timestamp" (.str ts))]),
          ("format", .str "json")])) := by
  have htruthy : pyTruthy (.str cat) = true := by simp [pyTruthy, hcat]
  refine ⟨?_, ?_, ?_⟩
  · intro hB
    have hBnn : B ≠ .null := by rcases hB with ⟨bf, rfl⟩ | ⟨bl, rfl⟩ <;> simp
    have hov := (overwrite_memory_structured
      (log_memory fs iid (reqBody cat A) ts).1 iid (reqBody cat B) (.str cat) B rfl
      htruthy (entryOf_reqBody cat B hBnn) hB).1
    rw [show pyStr (.str cat) = cat from rfl] at hov
    rw [get_memory_eq_view]
    unfold read_view
    rw [Option.getD_some, congrFun hov _, if_pos rfl]
    rfl
  · rintro bs rfl hA
    have hs1j : (log_memory fs iid (reqBody cat A) ts).1.files
        (filePathStr iid cat true) = none := by
      cases A with
      | obj af => exact absurd rfl (hA af)
      | null =>
          rw [log_memory_no_entry fs iid ts (reqBody cat .null) (by rfl)]
          exact hfj
      | bool b =>
          rw [congrFun (log_memory_raw fs iid ts (reqBody cat (.bool b)) cat _
            (typeOfDefault_reqBody cat _) (entryOf_reqBody cat _ (by simp))
            (by simp)).1 _,
            if_neg (filePathStr_json_ne_raw iid cat iid cat)]
          exact hfj
      | num n =>
          rw [congrFun (log_memory_raw fs iid ts (reqBody cat (.num n)) cat _
            (typeOfDefault_reqBody cat _) (entryOf_reqBody cat _ (by simp))
            (by simp)).1 _,
            if_neg (filePathStr_json_ne_raw iid cat iid cat)]
          exact hfj
      | str s =>
          rw [congrFun (log_memory_raw fs iid ts (reqBody cat (.str s)) cat _
            (typeOfDefault_reqBody cat _) (entryOf_reqBody cat _ (by simp))
            (by simp)).1 _,
            if_neg (filePathStr_json_ne_raw iid cat iid cat)]
          exact hfj
      | arr l =>
          rw [congrFun (log_memory_raw fs iid ts (reqBody cat (.arr l)) cat _
            (typeOfDefault_reqBody cat _) (entryOf_reqBody cat _ (by simp))
            (by simp)).1 _,
            if_neg (filePathStr_json_ne_raw iid cat iid cat)]
          exact hfj
    have hov := (overwrite_memory_str
      (log_memory fs iid (reqBody cat A) ts).1 iid (reqBody cat (.str bs))
      (.str cat) bs rfl htruthy (entryOf_reqBody cat _ (by simp))).1
    rw [show pyStr (.str cat) = cat from rfl] at hov
    rw [get_memory_eq_view]
    unfold read_view
    rw [Option.getD_some, congrFun hov _,
      if_neg (filePathStr_json_ne_raw iid cat iid cat), hs1j,
      congrFun hov _, if_pos rfl]
    rfl
  · rintro bs af rfl rfl
    have hs1j : (log_memory fs iid (reqBody cat (.obj af)) ts).1.files
        (filePathStr iid cat true) =
        some (.json (.arr [.obj (setKey af "timestamp" (.str ts))])) := by
      rw [congrFun (log_memory_obj fs iid ts (reqBody cat (.obj af)) cat af []
        (typeOfDefault_reqBody cat _) (entryOf_reqBody cat _ (by simp))
        (by rw [hfj]; rfl)).1 _, if_pos rfl]
      rfl
    have hov := (overwrite_memory_str
      (log_memory fs iid (reqBody cat (.obj af)) ts).1 iid (reqBody cat (.str bs))
      (.str cat) bs rfl htruthy (entryOf_reqBody cat _ (by simp))).1
    rw [show pyStr (.str cat) = cat from rfl] at hov
    rw [get_memory_eq_view]
    unfold read_view
    rw [Option.getD_some, congrFun hov _,
      if_neg (filePathStr_json_ne_raw iid cat iid cat), hs1j]
    rfl

theorem overwrite_after_append_witness :
    (get_memory (overwrite_memory
        (log_memory FS.initial "t" (reqBody "core" (.str "old")) "T1").1
        "t" (reqBody "core" (.obj [("k", .num 2)]))).1 "t" (some "core")).2 =
      .ok (.obj [("memory", .obj [("k", .num 2)]), ("format", .str "json")]) :=
  (overwrite_after_append FS.initial "t" "core" "T1" (.str "old")
    (.obj [("k", .num 2)]) (by decide) rfl rfl).1 (.inl ⟨_, rfl⟩)

/-- C2 (amended): per-tenant fetch failures are fully isolated — with the
repository's registered handlers (which never raise) and well-formed fetched
records (every module descriptor a dict whose declared module type is not
itself a list or dict), a cycle never aborts and every bot's dispatches are
exactly its own, independent of any pattern of fetch failures for other
bots; the cycle-level catch then logs and the loop continues.  (Without the
well-formedness condition, a non-dict descriptor or an unhashable declared
type raises, and only the cycle-level handler catches it — see the
counterexample.) -/
theorem dispatcher_fetch_isolation (net : Net) (src : Option String)
    (hwf : ∀ k mt v, net k mt = .ok v → pyTruthy v = true →
             ∀ m ∈ modulesOf v, (∃ fl, m = .obj fl) ∧
               hashableKey (declaredType m) = true) :
    run_cycle MODULE_HANDLERS net src =
      ((load_whitelist_bots src).flatMap (fun bk =>
        (runMems MODULE_HANDLERS bk.1 bk.2 (botMemories net bk.2)
          (botMemories net bk.2)).1),
       none) :=
  runBots_ok MODULE_HANDLERS MODULE_HANDLERS_ok net hwf (load_whitelist_bots src)

theorem dispatcher_fetch_isolation_witness :
    run_cycle MODULE_HANDLERS
      (fun k mt =>
        if k = "keyB" ∧ mt = "core" then .ok (.obj [("type", .str "email-monitor")])
        else .error "timeout")
      (some "A, keyA\nB, keyB") =
      ([⟨"B", "core", "email-monitor", .obj [("type", .str "email-monitor")]⟩],
       none) := by
  rw [dispatcher_fetch_isolation
    (fun k mt =>
      if k = "keyB" ∧ mt = "core" then .ok (.obj [("type", .str "email-monitor")])
      else .error "timeout")
    (some "A, keyA\nB, keyB")
    (by
      intro k mt v hv htr m hm
      simp only [] at hv
      by_cases hb : k = "keyB" ∧ mt = "core"
      · rw [if_pos hb] at hv
        injection hv with hv'
        subst hv'
        simp only [modulesOf, List.mem_singleton] at hm
        subst hm
        exact ⟨⟨_, rfl⟩, by decide⟩
      · rw [if_neg hb] at hv
        cases hv)]
  rfl

/-- C2 counterexample: a failure below the per-tenant fetch is caught only at
cycle level, so the rest of that cycle — including tenant B's valid module —
is never dispatched.  Two such failures: a non-dict element of a list record
(classification raises `AttributeError`), and a dict record whose declared
module type is itself a list (`dict.get` raises `TypeError`); in both cases
the cycle produces no dispatches at all, although tenant B's module is
dispatched whenever tenant A merely times out. -/
theorem dispatcher_abort_counterexample :
    run_cycle MODULE_HANDLERS
      (fun k mt =>
        if k = "keyA" ∧ mt = "core" then
          .ok (.arr [.str "oops", .obj [("type", .str "email-monitor")]])
        else if k = "keyB" ∧ mt = "core" then
          .ok (.obj [("type", .str "email-monitor")])
        else .error "timeout")
      (some "A, keyA\nB, keyB") =
      ([], some "AttributeError: get on non-dict module") ∧
    run_cycle MODULE_HANDLERS
      (fun k mt =>
        if k = "keyA" ∧ mt = "core" then
          .ok (.obj [("type", .arr [.str "email-monitor"])])
        else if k = "keyB" ∧ mt = "core" then
          .ok (.obj [("type", .str "email-monitor")])
        else .error "timeout")
      (some "A, keyA\nB, keyB") =
      ([], some "TypeError: unhashable type: 'list'") ∧
    run_cycle MODULE_HANDLERS
      (fun k mt =>
        if k = "keyB" ∧ mt = "core" then .ok (.obj [("type", .str "email-monitor")])
        else .error "timeout")
      (some "A, keyA\nB, keyB") =
      ([⟨"B", "core", "email-monitor", .obj [("type", .str "email-monitor")]⟩],
       none) := by
  refine ⟨?_, ?_, ?_⟩
  · rfl
  · rfl
  · rfl

/-- C4 (amended): provided both tenant credentials are nonempty, contain no
path separator and are neither "." nor "..", every category the writer's
operations resolve under contains no path separator, and the reading
tenant's category contains none, one tenant's appends and overwrites (with
otherwise arbitrary request bodies) never change what the other tenant
reads.  These hypotheses are exactly the domain on which the string paths
the backend builds coincide with their OS-resolved form (no ".." or "."
segment, every written file directly inside its tenant's freshly created
directory); outside it the program itself violates isolation — see the
counterexample, and note that a writer category such as "../bob/core" would
likewise reach bob's file after OS path resolution, which string-keyed file
identity cannot express. -/
theorem tenant_isolation (fs : FS) (i1 i2 cat2 : String) (ops : List MemOp)
    (h1 : '/' ∉ i1.data) (h1ne : i1 ≠ "") (h1d : i1 ≠ ".") (h1dd : i1 ≠ "..")
    (h2 : '/' ∉ i2.data) (h2ne : i2 ≠ "") (h2d : i2 ≠ ".") (h2dd : i2 ≠ "..")
    (h12 : i1 ≠ i2) (hcat : '/' ∉ cat2.data)
    (hops : ∀ op ∈ ops, '/' ∉ (MemOp.category op).data) :
    (get_memory (applyOps fs i1 ops) i2 (some cat2)).2 =
      (get_memory fs i2 (some cat2)).2 := by
  rw [get_memory_eq_view, get_memory_eq_view, Option.getD_some]
  apply read_view_congr
  · exact applyOps_frame ops fs i1 _ (fun mt b =>
      Ne.symm (filePathStr_cross_tenant_ne i1 mt b i2 cat2 true
        h1 h1ne h2 h2ne h12 hcat))
  · exact applyOps_frame ops fs i1 _ (fun mt b =>
      Ne.symm (filePathStr_cross_tenant_ne i1 mt b i2 cat2 false
        h1 h1ne h2 h2ne h12 hcat))

theorem tenant_isolation_witness :
    (get_memory (applyOps FS.initial "alice"
        [.append (reqBody "core" (.str "hi")) "T"]) "bob" (some "core")).2 =
      (get_memory FS.initial "bob" (some "core")).2 :=
  tenant_isolation FS.initial "alice" "bob" "core"
    [.append (reqBody "core" (.str "hi")) "T"]
    (by decide) (by decide) (by decide) (by decide)
    (by decide) (by decide) (by decide) (by decide)
    (by decide) (by decide)
    (by
      intro op hop
      simp only [List.mem_singleton] at hop
      subst hop
      decide)

/-- C4 counterexample, a real request trace: tenant "a/b" first reads its
(empty) category "core" — that request's `os.makedirs` creates the directory
`memory_data/a/b` — then tenant "a" appends to category "b/core", whose
`open(..., "a")` succeeds because that directory now exists and lands on the
very file `memory_data/a/b/core.txt`; tenant "a/b"'s next read of "core"
returns tenant "a"'s line where it previously got 404. -/
theorem tenant_isolation_counterexample :
    (get_memory FS.initial "a/b" (some "core")).2 = .err 404 "No memory found" ∧
    (get_memory
      (log_memory (get_memory FS.initial "a/b" (some "core")).1
        "a" (reqBody "b/core" (.str "hello")) "T0").1
      "a/b" (some "core")).2 =
      .ok (.obj [("memory", .str "[T0] hello\n"), ("format", .str "text")]) :=
  ⟨rfl, rfl⟩

  
end MemoryKeep
